import Mathlib

/-!
Shallow embedding of the protocol engine of the Open Power Box INDI driver
(src/drivers/power/opbdriver.cpp).  C++ strings are modelled as `List Char`,
the `state` / `name_switch` caches as `List (List Char)`, `Reverse` as
`List Bool` and `Limit` as a list of exact decimals.  Fallible C++ library calls
(`std::stoi`, `std::stof`, `std::string::erase`, `std::string::substr`)
throw exceptions on bad input; a thrown, uncaught exception is modelled by
the outcome `Outcome.crash`.  The byte stream available on the serial port
for one exchange is an `Option (List Char)`: `none` models a transport
error or timeout before any terminator byte arrived.
-/

namespace OPB

/-- Index of the first occurrence of a character, `std::string::find`
(`none` plays the role of `npos`). -/
def findCharIdx (c : Char) : List Char → Option Nat
  | [] => none
  | x :: xs => if x = c then some 0 else (findCharIdx c xs).map (· + 1)

/-- Index of the last occurrence of a character, `std::string::find_last_of`. -/
def rfindCharIdx (c : Char) (l : List Char) : Option Nat :=
  (findCharIdx c l.reverse).map (fun k => l.length - 1 - k)

/-- Numeric value of a decimal digit character. -/
def digitVal (c : Char) : Nat := c.toNat - 48

/-- Value of a most-significant-first list of decimal digit characters. -/
def digitsValue (l : List Char) : Nat := l.foldl (fun a c => 10 * a + digitVal c) 0

/-- Model of `std::stoi`: skip spaces, optional sign, then at least one
decimal digit; further characters are ignored.  `none` models the
`std::invalid_argument` exception thrown when no digits are found. -/
def stoi (l : List Char) : Option Int :=
  let l1 := l.dropWhile (fun c => c = ' ')
  match l1 with
  | '-' :: rest =>
    let d := rest.takeWhile Char.isDigit
    if d.isEmpty then none else some (-(digitsValue d : Int))
  | '+' :: rest =>
    let d := rest.takeWhile Char.isDigit
    if d.isEmpty then none else some ((digitsValue d : Int))
  | _ =>
    let d := l1.takeWhile Char.isDigit
    if d.isEmpty then none else some ((digitsValue d : Int))

/-- Exact decimal number: mantissa and number of fractional digits, with
value `fst / 10 ^ snd`.  Every floating value the driver exchanges
(two-decimal telemetry strings) is exactly representable this way, so
`float` arithmetic on them is modelled exactly. -/
abbrev Fixed := Int × Nat

/-- Rational value of an exact decimal. -/
def fixedVal (x : Fixed) : ℚ := (x.1 : ℚ) / (10 : ℚ) ^ x.2

/-- Exact product of two decimals (how `v*a` behaves on exactly
representable operands). -/
def fixedMul (x y : Fixed) : Fixed := (x.1 * y.1, x.2 + y.2)

/-- Model of `std::stof` on the decimal fragment the device uses
(optional sign, integer digits, optional fraction).  `none` models the
`std::invalid_argument` exception thrown when no digits are found. -/
def stof (l : List Char) : Option Fixed :=
  let l1 := l.dropWhile (fun c => c = ' ')
  let neg : Bool := match l1 with
    | '-' :: _ => true
    | _ => false
  let l2 := match l1 with
    | '-' :: rest => rest
    | '+' :: rest => rest
    | _ => l1
  let ip := l2.takeWhile Char.isDigit
  let l3 := l2.drop ip.length
  match l3 with
  | '.' :: rest =>
    let fp := rest.takeWhile Char.isDigit
    if ip.isEmpty ∧ fp.isEmpty then none
    else
      let m : Int := Int.ofNat (digitsValue ip * 10 ^ fp.length + digitsValue fp)
      some (if neg then -m else m, fp.length)
  | _ =>
    if ip.isEmpty then none
    else
      let m : Int := Int.ofNat (digitsValue ip)
      some (if neg then -m else m, 0)

/-- Decimal digits of a natural number, most significant first
(fuel-driven helper for `natRepr`). -/
def natReprAux : Nat → Nat → List Char
  | 0, _ => []
  | fuel + 1, n => if n = 0 then [] else natReprAux fuel (n / 10) ++ [Nat.digitChar (n % 10)]

/-- Decimal representation of a natural number, as `std::to_string` renders it. -/
def natRepr (n : Nat) : List Char := if n = 0 then ['0'] else natReprAux n n

/-- Model of `std::to_string(int)`. -/
def intRepr (v : Int) : List Char :=
  if v < 0 then '-' :: natRepr v.natAbs else natRepr v.natAbs

/-- The six zero decimals `std::to_string(double)` appends to an integral value. -/
def sixZeros : List Char := ['0', '0', '0', '0', '0', '0']

/-- Truncation of `int` to `short`, as in `short(std::stoi(...))`. -/
def toShort (n : Int) : Int :=
  let m := n % 65536
  if m < 32768 then m else m - 65536

/-- First character of a string; `operator[]` on position 0 yields the null
character for an empty `std::string`. -/
def headOr (l : List Char) : Char := l.headD (Char.ofNat 0)

/-- Observable result of one command/response exchange.  `crash` is an
uncaught C++ exception escaping the member function. -/
inductive Outcome where
  | ok
  | deviceError (payload : List Char)
  | ackMismatch
  | dropped
  | crash
  deriving DecidableEq, Repr

/-- Value part of a transmitted request frame. -/
inductive Payload where
  | intv (v : Int)
  | fltv (v : Fixed)
  | strv (s : List Char)
  | nov
  deriving DecidableEq, Repr

/-- A transmitted request, as built by the `Transmit` overloads:
command character, switch number, optional value. -/
structure Frame where
  cmd : Char
  num : Int
  val : Payload
  deriving DecidableEq, Repr

/-- Result of a cache-mutating exchange: the `state` (or `name_switch`)
array afterwards, the frames written to the serial port, and the outcome. -/
structure OpResult where
  state : List (List Char)
  frames : List Frame
  out : Outcome
  deriving DecidableEq, Repr

/-- Model of `tty_read_section`: the bytes up to and including the first
terminator `;` of the available stream, or `none` on timeout/IO error. -/
def ttyReadSection (stream : Option (List Char)) : Option (List Char) :=
  match stream with
  | none => none
  | some s =>
    match findCharIdx ';' s with
    | none => none
    | some j => some (s.take (j + 1))

/-- Model of `OPB::ReceiveTerminated(';')`: on a tty error it returns the
empty string; otherwise it takes the substring from the first `#` on
(`substr(npos)` throws when no `#` is present, modelled by `error`). -/
def receiveTerminated (stream : Option (List Char)) : Except Unit (List Char) :=
  match ttyReadSection stream with
  | none => Except.ok []
  | some bytes =>
    match findCharIdx '#' bytes with
    | none => Except.error ()
    | some i => Except.ok (bytes.drop i)

/-- Model of `OPB::SetSwitchUSB(id, value)`: speculative cache write, then
transmit `S`, then decode the answer; a `G`-tagged answer for the same
index is compared on its leading character only, with rollback on
mismatch.  Note the index is parsed with `std::stoi` before the `E` tag
test. -/
def setSwitchUSB (st : List (List Char)) (id : Nat) (value : Int)
    (stream : Option (List Char)) : OpResult :=
  let pkt : Frame := ⟨'S', Int.ofNat id, Payload.intv value⟩
  let prev := st.getD id []
  let st1 := st.set id (intRepr value)
  match receiveTerminated stream with
  | Except.error _ => ⟨st1, [pkt], Outcome.crash⟩
  | Except.ok buf0 =>
    let buf1 := buf0.drop 1
    if buf1.length = 0 then ⟨st1, [pkt], Outcome.crash⟩
    else
      let buf2 := buf1.take (buf1.length - 1)
      if buf2.length = 0 then ⟨st1, [pkt], Outcome.crash⟩
      else
        let iOpt := findCharIdx ':' buf2
        let cnt := match iOpt with
          | some p => if p = 0 then buf2.length else p - 1
          | none => buf2.length
        let idxStr := (buf2.drop 1).take cnt
        match stoi idxStr with
        | none => ⟨st1, [pkt], Outcome.crash⟩
        | some n =>
          if headOr buf2 = 'E' then ⟨st1, [pkt], Outcome.deviceError buf2⟩
          else if headOr buf2 = 'G' ∧ toShort n = Int.ofNat id then
            let buf3 := match iOpt with
              | some p => buf2.drop (p + 1)
              | none => buf2
            if headOr (st1.getD id []) = headOr buf3 then ⟨st1, [pkt], Outcome.ok⟩
            else ⟨st1.set id prev, [pkt], Outcome.ackMismatch⟩
          else ⟨st1, [pkt], Outcome.dropped⟩

/-- Model of `OPB::SetSwitchValueUSB(id, value)` for the integral duty-cycle
values its callers pass: the speculative cache entry is
`std::to_string(double)` (six decimals) and the acknowledgment comparison
re-parses both sides with `std::stoi`. -/
def setSwitchValueUSB (st : List (List Char)) (id : Nat) (value : Int)
    (stream : Option (List Char)) : OpResult :=
  let pkt : Frame := ⟨'S', Int.ofNat id, Payload.intv value⟩
  let prev := st.getD id []
  let st1 := st.set id (intRepr value ++ '.' :: sixZeros)
  match receiveTerminated stream with
  | Except.error _ => ⟨st1, [pkt], Outcome.crash⟩
  | Except.ok buf0 =>
    let buf1 := buf0.drop 1
    if buf1.length = 0 then ⟨st1, [pkt], Outcome.crash⟩
    else
      let buf2 := buf1.take (buf1.length - 1)
      if buf2.length = 0 then ⟨st1, [pkt], Outcome.crash⟩
      else
        let iOpt := findCharIdx ':' buf2
        let cnt := match iOpt with
          | some p => if p = 0 then buf2.length else p - 1
          | none => buf2.length
        let idxStr := (buf2.drop 1).take cnt
        match stoi idxStr with
        | none => ⟨st1, [pkt], Outcome.crash⟩
        | some n =>
          if headOr buf2 = 'E' then ⟨st1, [pkt], Outcome.deviceError buf2⟩
          else if headOr buf2 = 'G' ∧ toShort n = Int.ofNat id then
            let buf3 := match iOpt with
              | some p => buf2.drop (p + 1)
              | none => buf2
            match stoi (st1.getD id []), stoi buf3 with
            | some x, some y =>
              if x = y then ⟨st1, [pkt], Outcome.ok⟩
              else ⟨st1.set id prev, [pkt], Outcome.ackMismatch⟩
            | _, _ => ⟨st1, [pkt], Outcome.crash⟩
          else ⟨st1, [pkt], Outcome.dropped⟩

/-- Model of `OPB::GetSwitchUSB(id)`: transmit `G`, decode; a matching
`G`-tagged answer commits to the cache only under the guard
`buf.find(';') != npos`, evaluated after the terminator has already been
stripped. -/
def getSwitchUSB (st : List (List Char)) (id : Nat)
    (stream : Option (List Char)) : OpResult :=
  let pkt : Frame := ⟨'G', Int.ofNat id, Payload.nov⟩
  match receiveTerminated stream with
  | Except.error _ => ⟨st, [pkt], Outcome.crash⟩
  | Except.ok buf0 =>
    let buf1 := buf0.drop 1
    if buf1.length = 0 then ⟨st, [pkt], Outcome.crash⟩
    else
      let buf2 := buf1.take (buf1.length - 1)
      if buf2.length = 0 then ⟨st, [pkt], Outcome.crash⟩
      else
        let iOpt := findCharIdx ':' buf2
        let cnt := match iOpt with
          | some p => if p = 0 then buf2.length else p - 1
          | none => buf2.length
        let idxStr := (buf2.drop 1).take cnt
        match stoi idxStr with
        | none => ⟨st, [pkt], Outcome.crash⟩
        | some n =>
          if headOr buf2 = 'E' then ⟨st, [pkt], Outcome.deviceError buf2⟩
          else if headOr buf2 = 'G' ∧ toShort n = Int.ofNat id then
            match findCharIdx ';' buf2 with
            | some j =>
              let buf4 := buf2.take j
              match iOpt with
              | some p =>
                if buf4.length < p + 1 then ⟨st, [pkt], Outcome.crash⟩
                else ⟨st.set id (buf4.drop (p + 1)), [pkt], Outcome.ok⟩
              | none => ⟨st.set id buf4, [pkt], Outcome.ok⟩
            | none => ⟨st, [pkt], Outcome.ok⟩
          else ⟨st, [pkt], Outcome.dropped⟩

/-- Model of `OPB::SetNameUSB(id, name)`: transmit `N`; the name cache is
written only from a validated `n`-tagged answer (no speculative write; the
trailing `;` is not stripped first, so the commit guard can succeed). -/
def setNameUSB (names : List (List Char)) (id : Nat) (nm : List Char)
    (stream : Option (List Char)) : OpResult :=
  let pkt : Frame := ⟨'N', Int.ofNat id, Payload.strv nm⟩
  match receiveTerminated stream with
  | Except.error _ => ⟨names, [pkt], Outcome.crash⟩
  | Except.ok buf0 =>
    let buf1 := buf0.drop 1
    if buf1.length = 0 then ⟨names, [pkt], Outcome.crash⟩
    else
      let iOpt := findCharIdx ':' buf1
      let cnt := match iOpt with
        | some p => if p = 0 then buf1.length else p - 1
        | none => buf1.length
      let idxStr := (buf1.drop 1).take cnt
      match stoi idxStr with
      | none => ⟨names, [pkt], Outcome.crash⟩
      | some n =>
        if headOr buf1 = 'E' then ⟨names, [pkt], Outcome.deviceError buf1⟩
        else if headOr buf1 = 'n' ∧ toShort n = Int.ofNat id then
          match findCharIdx ';' buf1 with
          | some j =>
            let buf4 := buf1.take j
            match iOpt with
            | some p =>
              if buf4.length < p + 1 then ⟨names, [pkt], Outcome.crash⟩
              else ⟨names.set id (buf4.drop (p + 1)), [pkt], Outcome.ok⟩
            | none => ⟨names.set id buf4, [pkt], Outcome.ok⟩
          | none => ⟨names, [pkt], Outcome.ok⟩
        else ⟨names, [pkt], Outcome.dropped⟩

/-- Result of a reverse-polarity exchange over the `Reverse[5]` array. -/
structure RevResult where
  reverse : List Bool
  frames : List Frame
  out : Outcome
  deriving DecidableEq, Repr

/-- Model of `OPB::SetReverseUSB(id, value)`: transmit `R`; `Reverse[id]`
is written only from a validated `r`-tagged answer. -/
def setReverseUSB (rev : List Bool) (id : Nat) (value : Int)
    (stream : Option (List Char)) : RevResult :=
  let pkt : Frame := ⟨'R', Int.ofNat id, Payload.intv value⟩
  match receiveTerminated stream with
  | Except.error _ => ⟨rev, [pkt], Outcome.crash⟩
  | Except.ok buf0 =>
    let buf1 := buf0.drop 1
    if buf1.length = 0 then ⟨rev, [pkt], Outcome.crash⟩
    else
      let iOpt := findCharIdx ':' buf1
      let cnt := match iOpt with
        | some p => if p = 0 then buf1.length else p - 1
        | none => buf1.length
      let idxStr := (buf1.drop 1).take cnt
      match stoi idxStr with
      | none => ⟨rev, [pkt], Outcome.crash⟩
      | some n =>
        if headOr buf1 = 'E' then ⟨rev, [pkt], Outcome.deviceError buf1⟩
        else if headOr buf1 = 'r' ∧ toShort n = Int.ofNat id then
          match findCharIdx ';' buf1 with
          | some j =>
            let buf4 := buf1.take j
            let vs := match iOpt with
              | some p => buf4.drop (p + 1)
              | none => buf4
            match stoi vs with
            | none => ⟨rev, [pkt], Outcome.crash⟩
            | some b => ⟨rev.set id (b != 0), [pkt], Outcome.ok⟩
          | none => ⟨rev, [pkt], Outcome.ok⟩
        else ⟨rev, [pkt], Outcome.dropped⟩

/-- Result of a limit exchange over the `Limit[6]` array. -/
structure LimResult where
  limit : List Fixed
  frames : List Frame
  out : Outcome
  deriving DecidableEq, Repr

/-- Model of `OPB::SetLimitsUSB(id, value)`: transmit `L`; the trailing `;`
is stripped before the commit guard `find(';') != npos`, so `Limit[id]` is
written only in the (dead) double-terminator case.  No speculative write. -/
def setLimitsUSB (lim : List Fixed) (id : Nat) (value : Fixed)
    (stream : Option (List Char)) : LimResult :=
  let pkt : Frame := ⟨'L', Int.ofNat id, Payload.fltv value⟩
  match receiveTerminated stream with
  | Except.error _ => ⟨lim, [pkt], Outcome.crash⟩
  | Except.ok buf0 =>
    let buf1 := buf0.drop 1
    if buf1.length = 0 then ⟨lim, [pkt], Outcome.crash⟩
    else
      let buf2 := buf1.take (buf1.length - 1)
      if buf2.length = 0 then ⟨lim, [pkt], Outcome.crash⟩
      else
        let iOpt := findCharIdx ':' buf2
        let cnt := match iOpt with
          | some p => if p = 0 then buf2.length else p - 1
          | none => buf2.length
        let idxStr := (buf2.drop 1).take cnt
        match stoi idxStr with
        | none => ⟨lim, [pkt], Outcome.crash⟩
        | some n =>
          if headOr buf2 = 'E' then ⟨lim, [pkt], Outcome.deviceError buf2⟩
          else if headOr buf2 = 'l' ∧ toShort n = Int.ofNat id then
            match findCharIdx ';' buf2 with
            | some j =>
              let buf4 := buf2.take j
              let vs := match iOpt with
                | some p => buf4.drop (p + 1)
                | none => buf4
              match stof vs with
              | none => ⟨lim, [pkt], Outcome.crash⟩
              | some b => ⟨lim.set id b, [pkt], Outcome.ok⟩
            | none => ⟨lim, [pkt], Outcome.ok⟩
          else ⟨lim, [pkt], Outcome.dropped⟩

/-- Per-class channel counts, `int numDC,numPWM,numRelay,numOn,numUSB`
(`numOn` is the DC bank). -/
structure Topology where
  numDC : Int
  numPWM : Int
  numRelay : Int
  numOn : Int
  numUSB : Int
  deriving DecidableEq, Repr

/-- Result of a topology-discovery exchange. -/
structure NumResult where
  topo : Topology
  frames : List Frame
  out : Outcome
  deriving DecidableEq, Repr

/-- Model of `OPB::GetNum()`: transmit `Z`, then parse the comma list from
the tail backward: USB, bank, relay, PWM, remainder DC.  Each field is
assigned as soon as it parses, so a later exception leaves earlier fields
updated. -/
def getNum (t : Topology) (stream : Option (List Char)) : NumResult :=
  let pkt : Frame := ⟨'Z', 0, Payload.nov⟩
  match receiveTerminated stream with
  | Except.error _ => ⟨t, [pkt], Outcome.crash⟩
  | Except.ok buf0 =>
    let buf1 := buf0.drop 1
    let iOpt := findCharIdx ':' buf1
    if headOr buf1 = 'E' then ⟨t, [pkt], Outcome.deviceError buf1⟩
    else if headOr buf1 = 'Z' then
      match findCharIdx ';' buf1 with
      | none => ⟨t, [pkt], Outcome.ok⟩
      | some j =>
        let buf2 := buf1.take j
        let buf3 := match iOpt with
          | some p => if buf2.length < p + 1 then none else some (buf2.drop (p + 1))
          | none => some buf2
        match buf3 with
        | none => ⟨t, [pkt], Outcome.crash⟩
        | some b0 =>
          match rfindCharIdx ',' b0 with
          | none =>
            (match stoi b0 with
             | none => ⟨t, [pkt], Outcome.crash⟩
             | some nU => ⟨{ t with numUSB := nU }, [pkt], Outcome.crash⟩)
          | some k1 =>
            match stoi (b0.drop (k1 + 1)) with
            | none => ⟨t, [pkt], Outcome.crash⟩
            | some nU =>
              let t1 := { t with numUSB := nU }
              let b1 := b0.take k1
              match rfindCharIdx ',' b1 with
              | none =>
                (match stoi b1 with
                 | none => ⟨t1, [pkt], Outcome.crash⟩
                 | some nO => ⟨{ t1 with numOn := nO }, [pkt], Outcome.crash⟩)
              | some k2 =>
                match stoi (b1.drop (k2 + 1)) with
                | none => ⟨t1, [pkt], Outcome.crash⟩
                | some nO =>
                  let t2 := { t1 with numOn := nO }
                  let b2 := b1.take k2
                  match rfindCharIdx ',' b2 with
                  | none =>
                    (match stoi b2 with
                     | none => ⟨t2, [pkt], Outcome.crash⟩
                     | some nR => ⟨{ t2 with numRelay := nR }, [pkt], Outcome.crash⟩)
                  | some k3 =>
                    match stoi (b2.drop (k3 + 1)) with
                    | none => ⟨t2, [pkt], Outcome.crash⟩
                    | some nR =>
                      let t3 := { t2 with numRelay := nR }
                      let b3 := b2.take k3
                      match rfindCharIdx ',' b3 with
                      | none =>
                        (match stoi b3 with
                         | none => ⟨t3, [pkt], Outcome.crash⟩
                         | some nP => ⟨{ t3 with numPWM := nP }, [pkt], Outcome.crash⟩)
                      | some k4 =>
                        match stoi (b3.drop (k4 + 1)) with
                        | none => ⟨t3, [pkt], Outcome.crash⟩
                        | some nP =>
                          let t4 := { t3 with numPWM := nP }
                          let b4 := b3.take k4
                          match stoi b4 with
                          | none => ⟨t4, [pkt], Outcome.crash⟩
                          | some nD => ⟨{ t4 with numDC := nD }, [pkt], Outcome.ok⟩
    else ⟨t, [pkt], Outcome.dropped⟩

/-- `total` in `OPB::TimerHit`: number of physical switches. -/
def totalSwitches (t : Topology) : Int :=
  t.numDC + t.numPWM + t.numOn + t.numRelay + t.numUSB

/-- `numSwitch` in `OPB::TimerHit`: the number of logical indices polled
each cycle. -/
def numSwitch (t : Topology) : Int :=
  (t.numDC + t.numPWM + t.numOn) * 2 + totalSwitches t + 4

/-- The poll sweep of `OPB::TimerHit`: `GetSwitchUSB(k)` for each index in
turn.  Returns the cache afterwards, the indices actually polled, and
whether an uncaught exception aborted the sweep. -/
def pollSweep (st : List (List Char)) (ks : List Nat)
    (streams : Nat → Option (List Char)) : List (List Char) × List Nat × Bool :=
  match ks with
  | [] => (st, [], false)
  | k :: rest =>
    let r := getSwitchUSB st k (streams k)
    match r.out with
    | Outcome.crash => (r.state, [k], true)
    | _ =>
      let q := pollSweep r.state rest streams
      (q.fst, k :: q.snd.fst, q.snd.snd)

/-- Result of one `TimerHit` cycle: the cache, the polled indices, the
derived total power (`v*a`), and whether an exception escaped. -/
structure TimerResult where
  state : List (List Char)
  polled : List Nat
  power : Option Fixed
  crashed : Bool
  deriving DecidableEq, Repr

/-- Model of the polling and power-derivation part of `OPB::TimerHit`:
sweep all `numSwitch` indices, then `v = stof(state[total])`,
`a = stof(state[total+1])`, power `v*a`.  A `stof` failure on the global
sensor entries is the uncaught exception the C++ would throw. -/
def timerHit (st : List (List Char)) (t : Topology)
    (streams : Nat → Option (List Char)) : TimerResult :=
  let q := pollSweep st (List.range (numSwitch t).toNat) streams
  if q.snd.snd then ⟨q.fst, q.snd.fst, none, true⟩
  else
    match stof (q.fst.getD (totalSwitches t).toNat []),
          stof (q.fst.getD ((totalSwitches t).toNat + 1) []) with
    | some v, some a => ⟨q.fst, q.snd.fst, some (fixedMul v a), false⟩
    | _, _ => ⟨q.fst, q.snd.fst, none, true⟩

/-- Physical index used for the DC bank by the `OnSP` branch of
`OPB::ISNewSwitch`. -/
def bankSwitchIndex (t : Topology) : Int := t.numDC + t.numPWM

/-- Physical index used for the relay by the `RelaySP` branch of
`OPB::ISNewSwitch`. -/
def relaySwitchIndex (t : Topology) : Int := t.numDC + t.numPWM + t.numOn

/-- Physical index used for USB port `p` by `OPB::SetUSBPort`. -/
def usbSwitchIndex (t : Topology) (p : Nat) : Int :=
  t.numDC + t.numPWM + t.numRelay + t.numOn + Int.ofNat p

/-- Model of `OPB::SetPowerPort(port, enabled)`: gated on the `Alldc`
master toggle; always returns `true`. -/
def setPowerPort (alldc : Bool) (st : List (List Char)) (port : Nat)
    (enabled : Bool) (stream : Option (List Char)) : OpResult × Bool :=
  if alldc then (setSwitchUSB st port (if enabled then 1 else 0) stream, true)
  else (⟨st, [], Outcome.ok⟩, true)

/-- Model of `OPB::SetDewPort(port, enabled, dutyCycle)`: gated on the
`Allpwm` master toggle; always returns `true`. -/
def setDewPort (allpwm : Bool) (numDC : Nat) (st : List (List Char)) (port : Nat)
    (enabled : Bool) (duty : Int) (stream : Option (List Char)) : OpResult × Bool :=
  if allpwm then
    (if enabled then setSwitchValueUSB st (numDC + port) duty stream
     else setSwitchValueUSB st (numDC + port) 0 stream, true)
  else (⟨st, [], Outcome.ok⟩, true)

/-- A well-formed tagged device response frame
`# <tag> <idStr> : <payload> ;` (body without the leading `#` and
trailing `;`). -/
def respBody (tag : Char) (idStr payload : List Char) : List Char :=
  tag :: (idStr ++ (':' :: payload))

/-- A complete well-formed response byte sequence. -/
def mkResp (tag : Char) (idStr payload : List Char) : List Char :=
  ('#' :: respBody tag idStr payload) ++ [';']

/-! Helper lemmas about the string machinery. -/

theorem findCharIdx_cons_self (c : Char) (l : List Char) : findCharIdx c (c :: l) = some 0 := by
  simp [findCharIdx]

theorem findCharIdx_cons_ne {a c : Char} (h : a ≠ c) (l : List Char) :
    findCharIdx c (a :: l) = (findCharIdx c l).map (· + 1) := by
  simp [findCharIdx, h]

theorem findCharIdx_eq_none {c : Char} {l : List Char} (h : c ∉ l) : findCharIdx c l = none := by
  induction l with
  | nil => rfl
  | cons a t ih =>
    have ha : a ≠ c := fun e => h (by simp [e])
    rw [findCharIdx_cons_ne ha, ih (fun m => h (List.mem_cons_of_mem a m))]
    rfl

theorem findCharIdx_append_left {c : Char} {l1 : List Char} (h : c ∉ l1) (l2 : List Char) :
    findCharIdx c (l1 ++ l2) = (findCharIdx c l2).map (· + l1.length) := by
  induction l1 with
  | nil =>
    simp only [List.nil_append, List.length_nil]
    cases hfk : findCharIdx c l2 <;> simp [hfk]
  | cons a t ih =>
    have ha : a ≠ c := fun e => h (by simp [e])
    have ht : c ∉ t := fun m => h (List.mem_cons_of_mem a m)
    rw [List.cons_append, findCharIdx_cons_ne ha, ih ht]
    cases findCharIdx c l2 with
    | none => rfl
    | some k => simp; omega

theorem take_length_append (l1 l2 : List Char) : (l1 ++ l2).take l1.length = l1 := by
  induction l1 with
  | nil => rfl
  | cons a t ih => simp [ih]

theorem drop_length_append (l1 l2 : List Char) : (l1 ++ l2).drop l1.length = l2 := by
  induction l1 with
  | nil => rfl
  | cons a t ih => simp [ih]

theorem cons_append_shift (l1 : List Char) (a : Char) (l2 : List Char) :
    l1 ++ a :: l2 = (l1 ++ [a]) ++ l2 := by
  simp

theorem getD_set_self {α : Type} (l : List α) (i : Nat) (x d : α) (h : i < l.length) :
    (l.set i x).getD i d = x := by
  induction l generalizing i with
  | nil => simp at h
  | cons a t ih =>
    cases i with
    | zero => rfl
    | succ k => simpa using ih k (by simpa using h)

theorem set_getD_self {α : Type} (l : List α) (i : Nat) (d : α) (h : i < l.length) :
    l.set i (l.getD i d) = l := by
  induction l generalizing i with
  | nil => rfl
  | cons a t ih =>
    cases i with
    | zero => simp
    | succ k => simpa using ih k (by simpa using h)

theorem toShort_eq_of_lt {n : Int} (h0 : 0 ≤ n) (h1 : n < 32768) : toShort n = n := by
  unfold toShort
  rw [Int.emod_eq_of_lt h0 (by omega)]
  simp [h1]

theorem digitChar_isDigit : ∀ k, k < 10 → (Nat.digitChar k).isDigit = true := by decide

theorem natReprAux_digits (fuel : Nat) : ∀ (n : Nat), ∀ c ∈ natReprAux fuel n, c.isDigit = true := by
  induction fuel with
  | zero => intro n c hc; simp [natReprAux] at hc
  | succ f ih =>
    intro n c hc
    rw [natReprAux] at hc
    by_cases h0 : n = 0
    · simp [h0] at hc
    · rw [if_neg h0] at hc
      rcases List.mem_append.mp hc with h | h
      · exact ih _ c h
      · have hcd : c = Nat.digitChar (n % 10) := by simpa using h
        subst hcd
        exact digitChar_isDigit _ (Nat.mod_lt _ (by omega))

theorem intRepr_chars {v : Int} {c : Char} (hc : c ∈ intRepr v) : c.isDigit = true ∨ c = '-' := by
  have hnat : ∀ m : Nat, c ∈ natRepr m → c.isDigit = true := by
    intro m hm
    rw [natRepr] at hm
    by_cases h0 : m = 0
    · rw [if_pos h0] at hm
      have : c = '0' := by simpa using hm
      subst this; decide
    · rw [if_neg h0] at hm
      exact natReprAux_digits m m c hm
  rw [intRepr] at hc
  by_cases hneg : v < 0
  · rw [if_pos hneg] at hc
    rcases List.mem_cons.mp hc with h | h
    · exact Or.inr h
    · exact Or.inl (hnat _ h)
  · rw [if_neg hneg] at hc
    exact Or.inl (hnat _ hc)

theorem colon_not_mem_intRepr (v : Int) : ':' ∉ intRepr v := by
  intro h
  rcases intRepr_chars h with h | h <;> simp at h

theorem semi_not_mem_intRepr (v : Int) : ';' ∉ intRepr v := by
  intro h
  rcases intRepr_chars h with h | h <;> simp at h

/-! Helper lemmas about parsing a well-formed response frame. -/

theorem semi_not_mem_respBody {tag : Char} {idStr payload : List Char}
    (h2 : ';' ∉ idStr) (h3 : ';' ∉ payload) (h4 : tag ≠ ';') :
    ';' ∉ respBody tag idStr payload := by
  rw [respBody]
  intro h
  rcases List.mem_cons.mp h with h | h
  · exact h4 h.symm
  · rcases List.mem_append.mp h with h | h
    · exact h2 h
    · rcases List.mem_cons.mp h with h | h
      · simp at h
      · exact h3 h

theorem respBody_find_colon {tag : Char} {idStr : List Char} (payload : List Char)
    (h1 : ':' ∉ idStr) (h5 : tag ≠ ':') :
    findCharIdx ':' (respBody tag idStr payload) = some (idStr.length + 1) := by
  rw [respBody, findCharIdx_cons_ne h5, findCharIdx_append_left h1]
  simp [findCharIdx]

theorem respBody_no_semi {tag : Char} {idStr payload : List Char}
    (h2 : ';' ∉ idStr) (h3 : ';' ∉ payload) (h4 : tag ≠ ';') :
    findCharIdx ';' (respBody tag idStr payload) = none :=
  findCharIdx_eq_none (semi_not_mem_respBody h2 h3 h4)

theorem receiveTerminated_mkResp {tag : Char} {idStr payload : List Char}
    (h2 : ';' ∉ idStr) (h3 : ';' ∉ payload) (h4 : tag ≠ ';') :
    receiveTerminated (some (mkResp tag idStr payload)) =
      Except.ok (mkResp tag idStr payload) := by
  have hb : ';' ∉ ('#' :: respBody tag idStr payload) := by
    intro h
    rcases List.mem_cons.mp h with h | h
    · simp at h
    · exact semi_not_mem_respBody h2 h3 h4 h
  have hfind : findCharIdx ';' (mkResp tag idStr payload) =
      some ('#' :: respBody tag idStr payload).length := by
    rw [mkResp, findCharIdx_append_left hb]
    simp [findCharIdx]
  have htake : (mkResp tag idStr payload).take (('#' :: respBody tag idStr payload).length + 1) =
      mkResp tag idStr payload := by
    apply List.take_of_length_le
    simp [mkResp]
  have hhash : findCharIdx '#' (mkResp tag idStr payload) = some 0 := by
    rw [mkResp, List.cons_append]
    exact findCharIdx_cons_self _ _
  rw [receiveTerminated, ttyReadSection, hfind]
  simp only [htake, hhash, List.drop_zero]

theorem setSwitchUSB_mkResp (st : List (List Char)) (id : Nat) (v : Int) (tag : Char)
    (idStr payload : List Char) (n : Int)
    (hid : id < st.length)
    (h1 : ':' ∉ idStr) (h2 : ';' ∉ idStr) (h3 : ';' ∉ payload)
    (h4 : tag ≠ ';') (h5 : tag ≠ ':')
    (h6 : stoi idStr = some n) :
    setSwitchUSB st id v (some (mkResp tag idStr payload)) =
      if tag = 'E'
      then ⟨st.set id (intRepr v), [⟨'S', Int.ofNat id, Payload.intv v⟩],
            Outcome.deviceError (respBody tag idStr payload)⟩
      else if tag = 'G' ∧ toShort n = Int.ofNat id then
        (if headOr (intRepr v) = headOr payload
         then ⟨st.set id (intRepr v), [⟨'S', Int.ofNat id, Payload.intv v⟩], Outcome.ok⟩
         else ⟨st, [⟨'S', Int.ofNat id, Payload.intv v⟩], Outcome.ackMismatch⟩)
      else ⟨st.set id (intRepr v), [⟨'S', Int.ofNat id, Payload.intv v⟩], Outcome.dropped⟩ := by
  have hrt := @receiveTerminated_mkResp tag idStr payload h2 h3 h4
  have hdrop1 : (mkResp tag idStr payload).drop 1 = respBody tag idStr payload ++ [';'] := by
    rw [mkResp, List.cons_append]
    simp
  have hBpos : ¬((respBody tag idStr payload).length = 0) := by
    simp [respBody]
  have hcolon := respBody_find_colon payload h1 h5
  have hdropB : (respBody tag idStr payload).drop 1 = idStr ++ ':' :: payload := by
    rw [respBody]
    simp
  have hidx : (idStr ++ ':' :: payload).take idStr.length = idStr :=
    take_length_append idStr _
  have hdrop3 : (respBody tag idStr payload).drop (idStr.length + 1 + 1) = payload := by
    rw [respBody, List.drop_succ_cons, cons_append_shift idStr ':' payload]
    rw [show idStr.length + 1 = (idStr ++ [':']).length from by simp]
    exact drop_length_append _ _
  have hhead : headOr (respBody tag idStr payload) = tag := rfl
  have hgd : (st.set id (intRepr v)).getD id [] = intRepr v := getD_set_self st id _ [] hid
  have hrb : (st.set id (intRepr v)).set id (st.getD id []) = st := by
    rw [List.set_set]
    exact set_getD_self st id [] hid
  simp only [setSwitchUSB, hrt, hdrop1, take_length_append, hcolon, hdropB, hidx, h6, hhead,
    hgd, hdrop3, hrb, hBpos, List.length_append, List.length_cons, List.length_nil,
    Nat.add_sub_cancel, Nat.zero_add, Nat.succ_ne_zero, if_false, Nat.add_eq_zero, and_false,
    false_and, one_ne_zero, ite_false]

theorem getSwitchUSB_mkResp (st : List (List Char)) (id : Nat) (tag : Char)
    (idStr payload : List Char) (n : Int)
    (h1 : ':' ∉ idStr) (h2 : ';' ∉ idStr) (h3 : ';' ∉ payload)
    (h4 : tag ≠ ';') (h5 : tag ≠ ':')
    (h6 : stoi idStr = some n) :
    getSwitchUSB st id (some (mkResp tag idStr payload)) =
      if tag = 'E'
      then ⟨st, [⟨'G', Int.ofNat id, Payload.nov⟩],
            Outcome.deviceError (respBody tag idStr payload)⟩
      else if tag = 'G' ∧ toShort n = Int.ofNat id
      then ⟨st, [⟨'G', Int.ofNat id, Payload.nov⟩], Outcome.ok⟩
      else ⟨st, [⟨'G', Int.ofNat id, Payload.nov⟩], Outcome.dropped⟩ := by
  have hrt := @receiveTerminated_mkResp tag idStr payload h2 h3 h4
  have hdrop1 : (mkResp tag idStr payload).drop 1 = respBody tag idStr payload ++ [';'] := by
    rw [mkResp, List.cons_append]
    simp
  have hBpos : ¬((respBody tag idStr payload).length = 0) := by
    simp [respBody]
  have hcolon := respBody_find_colon payload h1 h5
  have hdropB : (respBody tag idStr payload).drop 1 = idStr ++ ':' :: payload := by
    rw [respBody]
    simp
  have hidx : (idStr ++ ':' :: payload).take idStr.length = idStr :=
    take_length_append idStr _
  have hnosemi := @respBody_no_semi tag idStr payload h2 h3 h4
  have hhead : headOr (respBody tag idStr payload) = tag := rfl
  simp only [getSwitchUSB, hrt, hdrop1, take_length_append, hcolon, hdropB, hidx, h6, hhead,
    hnosemi, hBpos, List.length_append, List.length_cons, List.length_nil,
    Nat.add_sub_cancel, Nat.zero_add, Nat.succ_ne_zero, if_false, Nat.add_eq_zero, and_false,
    false_and, one_ne_zero, ite_false]

/-- C1: for every index `id` holding a prior cached value, a boolean set
(command `S` via `SetSwitchUSB`) answered by a `G` response that echoes the
prior cached value (whose leading character differs from the requested
value) restores the cache entry to the prior value, reports an
acknowledgment mismatch, and transmits exactly one frame (no retry). -/
theorem c1_set_mismatch_rollback (st : List (List Char)) (id : Nat) (v1 : Int)
    (idStr : List Char)
    (hid : id < st.length) (hshort : Int.ofNat id < 32768)
    (h1 : ':' ∉ idStr) (h2 : ';' ∉ idStr) (h3 : ';' ∉ st.getD id [])
    (h6 : stoi idStr = some (Int.ofNat id))
    (hdiff : headOr (intRepr v1) ≠ headOr (st.getD id [])) :
    setSwitchUSB st id v1 (some (mkResp 'G' idStr (st.getD id []))) =
      ⟨st, [⟨'S', Int.ofNat id, Payload.intv v1⟩], Outcome.ackMismatch⟩ := by
  rw [setSwitchUSB_mkResp st id v1 'G' idStr (st.getD id []) (Int.ofNat id) hid h1 h2 h3
    (by decide) (by decide) h6]
  rw [if_neg (by decide : ¬('G' = 'E'))]
  rw [if_pos ⟨rfl, toShort_eq_of_lt (Int.ofNat_nonneg id) hshort⟩]
  rw [if_neg hdiff]

theorem c1_set_mismatch_rollback_witness :
    1 < ([['1'], ['0']] : List (List Char)).length ∧
    stoi (['1']) = some (Int.ofNat 1) ∧
    headOr (intRepr 1) ≠ headOr ([['1'], ['0']].getD 1 []) ∧
    setSwitchUSB [['1'], ['0']] 1 1 (some (mkResp 'G' (['1']) ([['1'], ['0']].getD 1 []))) =
      ⟨[['1'], ['0']], [⟨'S', Int.ofNat 1, Payload.intv 1⟩], Outcome.ackMismatch⟩ :=
  ⟨by decide, by decide, by decide,
    c1_set_mismatch_rollback [['1'], ['0']] 1 1 (['1']) (by decide) (by decide) (by decide)
      (by decide) (by decide) (by decide) (by decide)⟩

/-- C8: for every index `id` and value `v`, a set of `v` acknowledged by
the matching `G` response carrying `to_string(v)` confirms the speculative
write: the cache entry afterwards is `to_string(v)`. -/
theorem c8_set_confirmed (st : List (List Char)) (id : Nat) (v : Int) (idStr : List Char)
    (hid : id < st.length) (hshort : Int.ofNat id < 32768)
    (h1 : ':' ∉ idStr) (h2 : ';' ∉ idStr)
    (h6 : stoi idStr = some (Int.ofNat id)) :
    setSwitchUSB st id v (some (mkResp 'G' idStr (intRepr v))) =
      ⟨st.set id (intRepr v), [⟨'S', Int.ofNat id, Payload.intv v⟩], Outcome.ok⟩ ∧
    (st.set id (intRepr v)).getD id [] = intRepr v := by
  constructor
  · rw [setSwitchUSB_mkResp st id v 'G' idStr (intRepr v) (Int.ofNat id) hid h1 h2
      (semi_not_mem_intRepr v) (by decide) (by decide) h6]
    rw [if_neg (by decide : ¬('G' = 'E'))]
    rw [if_pos ⟨rfl, toShort_eq_of_lt (Int.ofNat_nonneg id) hshort⟩]
    rw [if_pos rfl]
  · exact getD_set_self st id _ [] hid

theorem c8_set_confirmed_witness :
    0 < ([['0']] : List (List Char)).length ∧
    stoi (['0']) = some (Int.ofNat 0) ∧
    (setSwitchUSB [['0']] 0 1 (some (mkResp 'G' (['0']) (intRepr 1))) =
      ⟨[['0']].set 0 (intRepr 1), [⟨'S', Int.ofNat 0, Payload.intv 1⟩], Outcome.ok⟩ ∧
    ([['0']].set 0 (intRepr 1)).getD 0 [] = intRepr 1) :=
  ⟨by decide, by decide,
    c8_set_confirmed [['0']] 0 1 (['0']) (by decide) (by decide) (by decide) (by decide)
      (by decide)⟩

/-- C6: a well-formed response whose decoded index differs from the
requested one is dropped silently by both `GetSwitchUSB` and
`SetSwitchUSB`: processing it mutates nothing (for a set, the cache keeps
exactly the speculative value written at transmission) and no error
outcome is surfaced. -/
theorem c6_mismatched_index_dropped (st : List (List Char)) (id : Nat) (v : Int) (tag : Char)
    (idStr payload : List Char) (n : Int)
    (hid : id < st.length)
    (h1 : ':' ∉ idStr) (h2 : ';' ∉ idStr) (h3 : ';' ∉ payload)
    (h4 : tag ≠ ';') (h5 : tag ≠ ':') (h8 : tag ≠ 'E')
    (h6 : stoi idStr = some n) (h7 : toShort n ≠ Int.ofNat id) :
    getSwitchUSB st id (some (mkResp tag idStr payload)) =
      ⟨st, [⟨'G', Int.ofNat id, Payload.nov⟩], Outcome.dropped⟩ ∧
    setSwitchUSB st id v (some (mkResp tag idStr payload)) =
      ⟨st.set id (intRepr v), [⟨'S', Int.ofNat id, Payload.intv v⟩], Outcome.dropped⟩ := by
  constructor
  · rw [getSwitchUSB_mkResp st id tag idStr payload n h1 h2 h3 h4 h5 h6]
    rw [if_neg h8, if_neg (fun h => h7 h.2)]
  · rw [setSwitchUSB_mkResp st id v tag idStr payload n hid h1 h2 h3 h4 h5 h6]
    rw [if_neg h8, if_neg (fun h => h7 h.2)]

theorem c6_mismatched_index_dropped_witness :
    stoi (['7']) = some 7 ∧
    toShort 7 ≠ Int.ofNat 3 ∧
    getSwitchUSB [[], [], [], ['0']] 3 (some (mkResp 'G' (['7']) (['1']))) =
      ⟨[[], [], [], ['0']], [⟨'G', Int.ofNat 3, Payload.nov⟩], Outcome.dropped⟩ ∧
    setSwitchUSB [[], [], [], ['0']] 3 1 (some (mkResp 'G' (['7']) (['1']))) =
      ⟨[[], [], [], ['0']].set 3 (intRepr 1), [⟨'S', Int.ofNat 3, Payload.intv 1⟩],
       Outcome.dropped⟩ :=
  ⟨by decide, by decide,
    (c6_mismatched_index_dropped [[], [], [], ['0']] 3 1 'G' (['7']) (['1']) 7 (by decide)
      (by decide) (by decide) (by decide) (by decide) (by decide) (by decide) (by decide)
      (by decide)).1,
    (c6_mismatched_index_dropped [[], [], [], ['0']] 3 1 'G' (['7']) (['1']) 7 (by decide)
      (by decide) (by decide) (by decide) (by decide) (by decide) (by decide) (by decide)
      (by decide)).2⟩

/-- C4: the error response `#E bad request;` does not produce a
`DeviceError`: the index is parsed with `std::stoi` before the `E` tag is
examined, so the non-numeric payload raises an uncaught
`std::invalid_argument` (crash); for a set command the speculative cache
write is left in place, not the pre-command value. -/
theorem c4_error_response_crashes :
    getSwitchUSB [['0'], ['1'], ['0']] 2 (some (("#E bad request;").toList)) =
      ⟨[['0'], ['1'], ['0']], [⟨'G', Int.ofNat 2, Payload.nov⟩], Outcome.crash⟩ ∧
    setSwitchUSB [['0'], ['1'], ['0']] 2 1 (some (("#E bad request;").toList)) =
      ⟨[['0'], ['1'], ['1']], [⟨'S', Int.ofNat 2, Payload.intv 1⟩], Outcome.crash⟩ ∧
    (setSwitchUSB [['0'], ['1'], ['0']] 2 1 (some (("#E bad request;").toList))).state.getD 2 [] ≠
      [['0'], ['1'], ['0']].getD 2 [] := by decide

/-- C2 counterexample: with the topology {DC 7, PWM 3, Relay 1, Bank 1,
USB 7}, the relay is NOT addressed at numDC+numPWM and the bank is NOT at
numDC+numPWM+numRelay: the code addresses the bank (`OnSP`) at
numDC+numPWM = 10 and the relay at numDC+numPWM+numOn = 11. -/
theorem c2_counterexample :
    ¬(relaySwitchIndex ⟨7, 3, 1, 1, 7⟩ =
        (Topology.mk 7 3 1 1 7).numDC + (Topology.mk 7 3 1 1 7).numPWM ∧
      bankSwitchIndex ⟨7, 3, 1, 1, 7⟩ =
        (Topology.mk 7 3 1 1 7).numDC + (Topology.mk 7 3 1 1 7).numPWM +
          (Topology.mk 7 3 1 1 7).numRelay) := by decide

/-- C2 (amended): the physical layout is DC, then PWM, then Bank, then
Relay, then USB: the bank is addressed at numDC+numPWM, the relay at
numDC+numPWM+numBank, and USB port p at numDC+numPWM+numRelay+numBank+p
(the USB offset is the same sum as in the original claim, since addition
commutes). -/
theorem c2_amended_layout (t : Topology) (p : Nat) :
    bankSwitchIndex t = t.numDC + t.numPWM ∧
    relaySwitchIndex t = t.numDC + t.numPWM + t.numOn ∧
    usbSwitchIndex t p = t.numDC + t.numPWM + t.numRelay + t.numOn + Int.ofNat p ∧
    usbSwitchIndex t p = t.numDC + t.numPWM + t.numOn + t.numRelay + Int.ofNat p :=
  ⟨rfl, rfl, rfl, by unfold usbSwitchIndex; ring⟩

/-- C3 counterexample: with a transport failure at the first polled index,
the sweep stops: index 1 is never polled (so not every subsequent index is
polled and updated), though the stale cache is kept. -/
theorem c3_counterexample :
    pollSweep [['1'], ['1'], ['1']] [0, 1] (fun _ => none) =
      ([['1'], ['1'], ['1']], [0], true) ∧
    (pollSweep [['1'], ['1'], ['1']] [0, 1] (fun _ => none)).snd.fst ≠ [0, 1] := by decide

/-- C3 (amended): a single failed read during the sweep aborts the
remainder of the sweep: `ReceiveTerminated` returns the empty string and
the subsequent `erase(length()-1)` throws an uncaught exception, so the
stale cached value is kept for that index but no subsequent index is
polled. -/
theorem c3_sweep_aborts_on_failed_read (st : List (List Char)) (k : Nat) (rest : List Nat)
    (streams : Nat → Option (List Char)) (h : streams k = none) :
    pollSweep st (k :: rest) streams = (st, [k], true) := by
  have hg : getSwitchUSB st k (streams k) =
      ⟨st, [⟨'G', Int.ofNat k, Payload.nov⟩], Outcome.crash⟩ := by
    rw [h]
    exact rfl
  simp [pollSweep, hg]

theorem c3_sweep_aborts_witness :
    ((fun _ => none : Nat → Option (List Char)) 0 = none) ∧
    pollSweep [['1'], ['1']] [0, 1] (fun _ => none) = ([['1'], ['1']], [0], true) :=
  ⟨rfl, c3_sweep_aborts_on_failed_read [['1'], ['1']] 0 [1] (fun _ => none) rfl⟩

/-- C5 counterexample: `SetNameUSB` does not write the requested name into
the cache before the response: after a response for a different index is
dropped, the name cache still holds the old value, not the requested
one. -/
theorem c5_counterexample :
    setNameUSB [['x']] 0 (['a', 'b', 'c']) (some (mkResp 'n' (['7']) (['a', 'b', 'c']))) =
      ⟨[['x']], [⟨'N', Int.ofNat 0, Payload.strv (['a', 'b', 'c'])⟩], Outcome.dropped⟩ ∧
    ([['x']] : List (List Char)) ≠ [['a', 'b', 'c']] := by decide

/-- C5 (amended): only the switch set command (S) writes the requested
value into the cache speculatively before the response is read; set-name
(N), set-reverse (R) and set-limit (L) leave their caches untouched until
a validated response arrives.  Observed at the point where the response
never arrives (transport failure): the S cache already holds the
requested value, the N/R/L caches are unchanged. -/
theorem c5_only_switch_set_is_speculative (st names : List (List Char)) (rev : List Bool)
    (lim : List Fixed) (id : Nat) (v : Int) (nm : List Char) (x : Fixed) :
    (setSwitchUSB st id v none).state = st.set id (intRepr v) ∧
    (setNameUSB names id nm none).state = names ∧
    (setReverseUSB rev id v none).reverse = rev ∧
    (setLimitsUSB lim id x none).limit = lim :=
  ⟨rfl, rfl, rfl, rfl⟩

/-- C7: topology discovery parses the `Z` comma list from the tail
backward (USB, then Bank, then Relay, then PWM, remainder DC):
`#Z:7,3,1,1,7;` yields {DC 7, PWM 3, Relay 1, Bank 1, USB 7}, 19 physical
switches and 45 polled logical indices; the asymmetric `#Z:1,2,3,4,5;`
confirms the field order. -/
theorem c7_topology_discovery :
    getNum ⟨0, 0, 0, 0, 0⟩ (some (("#Z:7,3,1,1,7;").toList)) =
      ⟨⟨7, 3, 1, 1, 7⟩, [⟨'Z', 0, Payload.nov⟩], Outcome.ok⟩ ∧
    totalSwitches ⟨7, 3, 1, 1, 7⟩ = 19 ∧
    numSwitch ⟨7, 3, 1, 1, 7⟩ = 45 ∧
    getNum ⟨0, 0, 0, 0, 0⟩ (some (("#Z:1,2,3,4,5;").toList)) =
      ⟨⟨1, 2, 3, 4, 5⟩, [⟨'Z', 0, Payload.nov⟩], Outcome.ok⟩ := by decide

/-- C9: after the poll sweep, the derived total power is the product of
the value cached at index `total` (input voltage) and the value cached at
index `total+1` (total current); in particular voltage 12.00 and current
2.50 yield power 30.00. -/
theorem c9_derived_power (st : List (List Char)) (t : Topology)
    (streams : Nat → Option (List Char)) (v a : Fixed)
    (hv : stof ((pollSweep st (List.range (numSwitch t).toNat) streams).fst.getD
      (totalSwitches t).toNat []) = some v)
    (ha : stof ((pollSweep st (List.range (numSwitch t).toNat) streams).fst.getD
      ((totalSwitches t).toNat + 1) []) = some a)
    (hnc : (pollSweep st (List.range (numSwitch t).toNat) streams).snd.snd = false) :
    (timerHit st t streams).power = some (fixedMul v a) ∧
    fixedVal (fixedMul v a) = fixedVal v * fixedVal a ∧
    (fixedVal v = 12 → fixedVal a = 5 / 2 → fixedVal (fixedMul v a) = 30) := by
  have hval : ∀ x y : Fixed, fixedVal (fixedMul x y) = fixedVal x * fixedVal y := by
    intro x y
    unfold fixedVal fixedMul
    rw [div_mul_div_comm, pow_add]
    push_cast
    ring
  refine ⟨?_, hval v a, ?_⟩
  · simp only [timerHit, hnc, hv, ha, Bool.false_eq_true, if_false, ite_false]
  · intro h1 h2
    rw [hval v a, h1, h2]
    norm_num

theorem c9_derived_power_witness :
    stof ((pollSweep [("12.00").toList, ("2.50").toList]
        (List.range (numSwitch ⟨0, 0, 0, 0, 0⟩).toNat)
        (fun _ => some (("#G0:9;").toList))).fst.getD
      (totalSwitches ⟨0, 0, 0, 0, 0⟩).toNat []) = some (1200, 2) ∧
    stof ((pollSweep [("12.00").toList, ("2.50").toList]
        (List.range (numSwitch ⟨0, 0, 0, 0, 0⟩).toNat)
        (fun _ => some (("#G0:9;").toList))).fst.getD
      ((totalSwitches ⟨0, 0, 0, 0, 0⟩).toNat + 1) []) = some (250, 2) ∧
    (timerHit [("12.00").toList, ("2.50").toList] ⟨0, 0, 0, 0, 0⟩
      (fun _ => some (("#G0:9;").toList))).power = some (fixedMul (1200, 2) (250, 2)) :=
  ⟨by decide, by decide,
    (c9_derived_power [("12.00").toList, ("2.50").toList] ⟨0, 0, 0, 0, 0⟩
      (fun _ => some (("#G0:9;").toList)) (1200, 2) (250, 2) (by decide) (by decide)
      (by decide)).1⟩

/-- C10: with the `Alldc` master toggle off, `SetPowerPort` transmits no
frame, changes no cache entry, and still returns true; likewise
`SetDewPort` with `Allpwm` off. -/
theorem c10_master_toggle_gates (st : List (List Char)) (port numDC : Nat) (enabled : Bool)
    (duty : Int) (stream : Option (List Char)) :
    setPowerPort false st port enabled stream = (⟨st, [], Outcome.ok⟩, true) ∧
    setDewPort false numDC st port enabled duty stream = (⟨st, [], Outcome.ok⟩, true) :=
  ⟨rfl, rfl⟩

end OPB

